import Mathlib

/-!
Shallow embedding of `src/dxf_to_csv.py` (DXF point extraction: tag scanner,
block registry, INSERT resolution with scale/rotate/translate, deduplication).

Modelling conventions:
* A file is a list of raw lines (`List String`); Python's `lines[i].strip()`
  is modelled by `pyStrip` applied at every access, exactly as in the source.
* The cursor `i` of the Python `while` loops is modelled by passing the
  remaining suffix `lines.drop i`.  The pattern `i += 1; if line == '0':
  i -= 1; break` (src lines 89-91, 190-191) corresponds to returning the
  suffix with the `"0"` line still unconsumed.
* Python floats are modelled exactly: numeric value strings are parsed into
  `ℚ` (`parseFloat?`), and the transform/resolution stage is polymorphic in a
  field `α` (instantiated at `ℝ` for the trigonometric claims, at `ℚ` for
  executable witnesses).  `math.radians`, `math.cos`, `math.sin` are library
  calls, modelled as function parameters `radiansf cosf sinf`.
* `print` diagnostics (src lines 66 and 258) are modelled as a `Diag` list
  returned next to the point list; the Python return value proper is the
  first component.
-/

namespace DxfToCsv

/-- Whitespace characters removed by Python str.strip (ASCII subset). -/
def isPySpace (c : Char) : Bool :=
  c = ' ' || c = '\t' || c = '\n' || c = '\r' || c = Char.ofNat 11 || c = Char.ofNat 12

/-- Python str.strip: drop whitespace from both ends. -/
def pyStrip (s : String) : String :=
  String.mk (((s.data.dropWhile isPySpace).reverse.dropWhile isPySpace).reverse)

/-- Numeric value of a decimal digit character. -/
def digitVal (c : Char) : ℕ := c.toNat - 48

/-- Value of a nonempty all-digit character list, `none` otherwise. -/
def decDigits? (cs : List Char) : Option ℕ :=
  if cs.isEmpty then none
  else if cs.all Char.isDigit then some (cs.foldl (fun a c => a * 10 + digitVal c) 0)
  else none

/-- Python int(s) on a stripped string: optional sign then decimal digits
(src lines 93, 137, 194).  Exotic syntax (underscores, unicode digits) is not
modelled. -/
def parseInt? (s : String) : Option ℤ :=
  match s.data with
  | '+' :: t => (decDigits? t).map (fun n => (n : ℤ))
  | '-' :: t => (decDigits? t).map (fun n => -(n : ℤ))
  | t => (decDigits? t).map (fun n => (n : ℤ))

/-- Split a character list at the first exponent marker e or E. -/
def splitExp : List Char → List Char × Option (List Char)
  | [] => ([], none)
  | c :: t =>
    if c = 'e' || c = 'E' then ([], some t)
    else
      let r := splitExp t
      (c :: r.1, r.2)

/-- Value of a digit list read in base 10 (0 for the empty list). -/
def digitsVal (cs : List Char) : ℕ := cs.foldl (fun a c => a * 10 + digitVal c) 0

/-- Mantissa of a float literal: digits with an optional single decimal dot,
at least one digit overall.  Returns the mantissa as a numerator together
with the number of fractional digits k, so its value is the first component
divided by 10 ^ k. -/
def mantissa? (cs : List Char) : Option (ℕ × ℕ) :=
  let ip := cs.takeWhile Char.isDigit
  let rest := cs.dropWhile Char.isDigit
  match rest with
  | [] => if ip.isEmpty then none else some (digitsVal ip, 0)
  | '.' :: fp =>
    if fp.all Char.isDigit && !(ip.isEmpty && fp.isEmpty) then
      some (digitsVal ip * 10 ^ fp.length + digitsVal fp, fp.length)
    else none
  | _ => none

/-- Exponent part of a float literal: optional sign then digits. -/
def expVal? (cs : List Char) : Option ℤ :=
  match cs with
  | '+' :: t => (decDigits? t).map (fun n => (n : ℤ))
  | '-' :: t => (decDigits? t).map (fun n => -(n : ℤ))
  | t => (decDigits? t).map (fun n => (n : ℤ))

/-- The exact rational value sign * (m / 10 ^ k) * 10 ^ e of a decimal
numeral, assembled with integer arithmetic and the normalising constructor
mkRat. -/
def ratOfParts (neg : Bool) (m k : ℕ) (e : ℤ) : ℚ :=
  let n : ℤ := if neg then -(m : ℤ) else (m : ℤ)
  match e with
  | Int.ofNat p => mkRat (n * 10 ^ p) (10 ^ k)
  | Int.negSucc p => mkRat n (10 ^ k * 10 ^ (p + 1))

/-- Python float(s) on a stripped string, for finite decimal numerals
(src lines 151, 156, 161, 206-237): sign, mantissa, optional exponent; the
value is computed exactly as a rational.  The special values inf/nan (not
representable exactly) are not modelled; no claim depends on them. -/
def parseFloat? (s : String) : Option ℚ :=
  let sc : Bool × List Char :=
    match s.data with
    | '+' :: t => (false, t)
    | '-' :: t => (true, t)
    | t => (false, t)
  let me := splitExp sc.2
  match mantissa? me.1, me.2 with
  | some m, none => some (ratOfParts sc.1 m.1 m.2 0)
  | some m, some ecs =>
    match expVal? ecs with
    | some e => some (ratOfParts sc.1 m.1 m.2 e)
    | none => none
  | none, _ => none

/-- A point as parsed from the file (exact rational coordinates). -/
abbrev PtQ := ℚ × ℚ × ℚ

/-- Accumulator for a POINT entity being read (src line 116 point_data). -/
structure PointData where
  x : Option ℚ
  y : Option ℚ
  z : Option ℚ
deriving DecidableEq

/-- Accumulator for an INSERT entity being read (src lines 177-184). -/
structure InsertAcc where
  name : String
  insertX : ℚ
  insertY : ℚ
  insertZ : ℚ
  scaleX : ℚ
  scaleY : ℚ
  scaleZ : ℚ
  rotation : ℚ
deriving DecidableEq

/-- Default INSERT parameters (src lines 177-184). -/
def initInsertAcc : InsertAcc := ⟨"", 0, 0, 0, 1, 1, 1, 0⟩

/-- Scanner state: top-level points, block registry, recorded inserts, the
active block name and its accumulated points (src lines 60, 70-75). -/
structure ScanState where
  points : List PtQ
  blocks : List (String × List PtQ)
  inserts : List InsertAcc
  currentBlock : Option String
  currentPoints : List PtQ
deriving DecidableEq

/-- Initial scanner state (src lines 60, 70-75). -/
def initState : ScanState := ⟨[], [], [], none, []⟩

/-- Diagnostics printed by the source: the read-failure message (src line 66)
and the unresolved-block warning (src line 258). -/
inductive Diag where
  | readError : Diag
  | unresolvedBlock (name : String) : Diag
deriving DecidableEq

/-- BLOCK-name loop (src lines 86-102): read code/value pairs until a code-2
value (the block name) or a "0" terminator, which is left unconsumed
(models the i -= 1 rewind at src lines 89-91).  Malformed code lines skip a
single line. -/
def blockNameLoop : List String → Option String × List String
  | [] => (none, [])
  | l :: rest =>
    let code_line := pyStrip l
    if code_line = "0" then (none, l :: rest)
    else
      match parseInt? code_line with
      | none => blockNameLoop rest
      | some code =>
        match rest with
        | [] => (none, [])
        | v :: rest2 =>
          if code = 2 then (some (pyStrip v), rest2)
          else blockNameLoop rest2

/-- Update the POINT accumulator with one code/value pair (src lines
149-163): codes 10/20/30 set x/y/z when the value parses, keep the previous
value otherwise; all other codes are ignored. -/
def applyPointCode (pd : PointData) (code : ℤ) (v : String) : PointData :=
  if code = 10 then
    match parseFloat? v with
    | some q => { pd with x := some q }
    | none => pd
  else if code = 20 then
    match parseFloat? v with
    | some q => { pd with y := some q }
    | none => pd
  else if code = 30 then
    match parseFloat? v with
    | some q => { pd with z := some q }
    | none => pd
  else pd

/-- POINT body loop (src lines 120-163): read code/value pairs until a "0"
terminator (left unconsumed; the source breaks before incrementing past it)
or end of input.  The Bool result models point_complete: the terminator was
reached with both x and y present. -/
def pointLoop : List String → PointData → PointData × Bool × List String
  | [], pd => (pd, false, [])
  | l :: rest, pd =>
    let code_line := pyStrip l
    if code_line = "0" then (pd, pd.x.isSome && pd.y.isSome, l :: rest)
    else
      match parseInt? code_line with
      | none => pointLoop rest pd
      | some code =>
        match rest with
        | [] => (pd, false, [])
        | v :: rest2 => pointLoop rest2 (applyPointCode pd code (pyStrip v))

/-- Keep the old value when the string fails to parse as a float
(the try/except ValueError/pass pattern, src lines 204-238). -/
def setIfParses (v : String) (old : ℚ) : ℚ :=
  match parseFloat? v with
  | some q => q
  | none => old

/-- Update the INSERT accumulator with one code/value pair (src lines
202-238): code 2 sets the block name, codes 10/20/30 the origin, 41/42/43
the scale, 50 the rotation; numeric parse failures keep the default. -/
def applyInsertCode (acc : InsertAcc) (code : ℤ) (v : String) : InsertAcc :=
  if code = 2 then { acc with name := v }
  else if code = 10 then { acc with insertX := setIfParses v acc.insertX }
  else if code = 20 then { acc with insertY := setIfParses v acc.insertY }
  else if code = 30 then { acc with insertZ := setIfParses v acc.insertZ }
  else if code = 41 then { acc with scaleX := setIfParses v acc.scaleX }
  else if code = 42 then { acc with scaleY := setIfParses v acc.scaleY }
  else if code = 43 then { acc with scaleZ := setIfParses v acc.scaleZ }
  else if code = 50 then { acc with rotation := setIfParses v acc.rotation }
  else acc

/-- INSERT body loop (src lines 187-238): read code/value pairs until a "0"
terminator, left unconsumed (models the i -= 1 rewind at src lines
190-191). -/
def insertLoop : List String → InsertAcc → InsertAcc × List String
  | [], acc => (acc, [])
  | l :: rest, acc =>
    let code_line := pyStrip l
    if code_line = "0" then (acc, l :: rest)
    else
      match parseInt? code_line with
      | none => insertLoop rest acc
      | some code =>
        match rest with
        | [] => (acc, [])
        | v :: rest2 => insertLoop rest2 (applyInsertCode acc code (pyStrip v))

/-- Commit the active block to the registry when its name is truthy (a
non-null, nonempty string) and it captured at least one point; src lines
107-108 and 247-248.  A Python dict write is modelled by prepending, with
`List.lookup` returning the newest binding (last-write-wins). -/
def registerCurrent (st : ScanState) : List (String × List PtQ) :=
  match st.currentBlock with
  | some nm =>
    if nm ≠ "" ∧ st.currentPoints ≠ [] then (nm, st.currentPoints) :: st.blocks
    else st.blocks
  | none => st.blocks

/-- ENDBLK handling (src lines 106-112): commit the active block, then clear
the active-block state. -/
def endblkStep (st : ScanState) : ScanState :=
  { st with blocks := registerCurrent st, currentBlock := none, currentPoints := [] }

/-- Defensive end-of-file flush of a trailing open block (src lines
247-248). -/
def flushBlock (st : ScanState) : ScanState :=
  { st with blocks := registerCurrent st }

/-- Emit a finished point: requires both x and y, z defaults to 0; the point
goes to the active block when one is set, to the top-level list otherwise
(src lines 124-132 and 165-172). -/
def finishPoint (st : ScanState) (pd : PointData) : ScanState :=
  match pd.x, pd.y with
  | some x, some y =>
    let z := pd.z.getD 0
    match st.currentBlock with
    | some _ => { st with currentPoints := st.currentPoints ++ [(x, y, z)] }
    | none => { st with points := st.points ++ [(x, y, z)] }
  | _, _ => st

/-- Point finalisation after the POINT loop: the terminator branch emitted
the point when complete (src lines 123-134), otherwise the post-loop check
emits it when x and y are present (src lines 165-172). -/
def emitPoint (st : ScanState) (pd : PointData) (complete : Bool) : ScanState :=
  if complete then finishPoint st pd
  else if pd.x.isSome && pd.y.isSome then finishPoint st pd
  else st

/-- Record a finished INSERT when a block name was captured (src lines
240-241). -/
def recordInsert (st : ScanState) (acc : InsertAcc) : ScanState :=
  if acc.name ≠ "" then { st with inserts := st.inserts ++ [acc] } else st

/-- One iteration of the outer scanning loop (src lines 77-244): dispatch on
the stripped current line, returning the next state and the remaining
lines. -/
def outerStep (l : String) (rest : List String) (st : ScanState) : ScanState × List String :=
  let line := pyStrip l
  if line = "BLOCK" then
    let r := blockNameLoop rest
    ({ st with currentBlock := r.1, currentPoints := [] }, r.2)
  else if line = "ENDBLK" then (endblkStep st, rest)
  else if line = "POINT" then
    let r := pointLoop rest ⟨none, none, none⟩
    (emitPoint st r.1 r.2.1, r.2.2)
  else if line = "INSERT" then
    let r := insertLoop rest initInsertAcc
    (recordInsert st r.1, r.2)
  else (st, rest)

/-- The outer while loop (src lines 77-244) with an explicit fuel bound on
the number of iterations; `none` means the fuel ran out before the input was
consumed.  On exhausted input the trailing block is flushed (src lines
247-248). -/
def scanLoop : ℕ → List String → ScanState → Option ScanState
  | _, [], st => some (flushBlock st)
  | 0, _ :: _, _ => none
  | fuel + 1, l :: rest, st =>
    let r := outerStep l rest st
    scanLoop fuel r.2 r.1

/-- First pass of parse_dxf_points (src lines 69-248): scan the whole file.
Fuel `lines.length` always suffices (each outer iteration consumes at least
one line); the fallback branch is dead. -/
def scan (lines : List String) : ScanState :=
  match scanLoop lines.length lines initState with
  | some st => st
  | none => initState

/-- transform_point (src lines 13-47): scale componentwise, rotate the
scaled x/y about Z when the angle is nonzero, translate by the insertion
origin; z is scaled and translated but never rotated.  The library calls
math.radians / math.cos / math.sin are the parameters radiansf / cosf /
sinf. -/
def transform_point {α : Type} [Field α] [DecidableEq α] (radiansf cosf sinf : α → α)
    (x y z insert_x insert_y insert_z scale_x scale_y scale_z rotation_deg : α) :
    α × α × α :=
  let x_scaled := x * scale_x
  let y_scaled := y * scale_y
  let z_scaled := z * scale_z
  let xy :=
    if rotation_deg ≠ 0 then
      let rotation_rad := radiansf rotation_deg
      let cos_r := cosf rotation_rad
      let sin_r := sinf rotation_rad
      (x_scaled * cos_r - y_scaled * sin_r, x_scaled * sin_r + y_scaled * cos_r)
    else (x_scaled, y_scaled)
  (xy.1 + insert_x, xy.2 + insert_y, z_scaled + insert_z)

/-- Embed a parsed rational point into the coordinate field. -/
def castPt {α : Type} [Field α] (p : PtQ) : α × α × α :=
  ((p.1 : α), (p.2.1 : α), (p.2.2 : α))

/-- Resolve a single INSERT (src lines 251-258): when its block is in the
registry, transform every block point with the instance parameters; when it
is absent, contribute no points and one unresolved-block diagnostic. -/
def resolveOne {α : Type} [Field α] [DecidableEq α] (radiansf cosf sinf : α → α)
    (blocks : List (String × List PtQ)) (ins : InsertAcc) :
    List (α × α × α) × List Diag :=
  match List.lookup ins.name blocks with
  | some pts =>
    (pts.map (fun p =>
      transform_point radiansf cosf sinf (p.1 : α) (p.2.1 : α) (p.2.2 : α)
        (ins.insertX : α) (ins.insertY : α) (ins.insertZ : α)
        (ins.scaleX : α) (ins.scaleY : α) (ins.scaleZ : α) (ins.rotation : α)), [])
  | none => ([], [Diag.unresolvedBlock ins.name])

/-- Second pass (src lines 250-258): resolve the recorded inserts in file
order, concatenating their contributed points and diagnostics. -/
def resolveInserts {α : Type} [Field α] [DecidableEq α] (radiansf cosf sinf : α → α)
    (blocks : List (String × List PtQ)) : List InsertAcc → List (α × α × α) × List Diag
  | [] => ([], [])
  | ins :: rest =>
    let h := resolveOne radiansf cosf sinf blocks ins
    let t := resolveInserts radiansf cosf sinf blocks rest
    (h.1 ++ t.1, h.2 ++ t.2)

/-- parse_dxf_points (src lines 49-260).  The input is `none` when the file
read fails (src lines 62-67): the source prints an error (modelled as
`Diag.readError`) and returns the empty point list.  Otherwise the scan runs
and the resolved instance points are appended after the top-level points. -/
def parse_dxf_points {α : Type} [Field α] [DecidableEq α] (radiansf cosf sinf : α → α)
    (file : Option (List String)) : List (α × α × α) × List Diag :=
  match file with
  | none => ([], [Diag.readError])
  | some lines =>
    let st := scan lines
    let r := resolveInserts radiansf cosf sinf st.blocks st.inserts
    (st.points.map castPt ++ r.1, r.2)

/-- Unique-ordered deduplication loop from main (src lines 306-311): keep a
point when it has not been seen, in input order.  The Python set `seen` is
modelled as the list of already-kept elements. -/
def dedupUniqueAux {α : Type} [DecidableEq α] : List α → List α → List α
  | _, [] => []
  | seen, p :: rest =>
    if p ∈ seen then dedupUniqueAux seen rest
    else p :: dedupUniqueAux (p :: seen) rest

/-- Unique-ordered mode of the deduplicator (src lines 304-312). -/
def dedupUnique {α : Type} [DecidableEq α] (l : List α) : List α := dedupUniqueAux [] l

/-- Keep-all mode of the deduplicator: the point list is left unchanged
(src line 288, remove_duplicates = False path). -/
def keepAll {α : Type} (l : List α) : List α := l

/-- Modelled from the spec (section 4.5): retain only the first occurrence
of each exactly-equal element, preserving first-seen order — keep the head,
drop all later equal elements, recurse. -/
def firstOccurs {α : Type} [DecidableEq α] : List α → List α
  | [] => []
  | p :: rest => p :: firstOccurs (rest.filter (fun q => decide (q ≠ p)))
termination_by l => l.length
decreasing_by
  simp only [List.length_cons]
  exact Nat.lt_succ_of_le (List.length_filter_le _ _)

/-- Modelled from the spec (section 4.3 step 1): componentwise scale. -/
def scaleStep {α : Type} [Field α] (sx sy sz : α) (p : α × α × α) : α × α × α :=
  (p.1 * sx, p.2.1 * sy, p.2.2 * sz)

/-- Modelled from the spec (section 4.3 step 2): rotate the x/y pair about Z
by the angle θ (radians) using the standard counter-clockwise matrix; z is
untouched. -/
def rotateStep {α : Type} [Field α] (cosf sinf : α → α) (θ : α) (p : α × α × α) : α × α × α :=
  (p.1 * cosf θ - p.2.1 * sinf θ, p.1 * sinf θ + p.2.1 * cosf θ, p.2.2)

/-- Modelled from the spec (section 4.3 step 3): translate by the insertion
origin. -/
def translateStep {α : Type} [Field α] (ox oy oz : α) (p : α × α × α) : α × α × α :=
  (p.1 + ox, p.2.1 + oy, p.2.2 + oz)

/-! Helper lemmas: the inner loops never lengthen the remaining line list,
so every outer iteration makes net forward progress. -/

theorem blockNameLoop_length : ∀ ls : List String, (blockNameLoop ls).2.length ≤ ls.length
  | [] => by simp [blockNameLoop]
  | l :: rest => by
    by_cases h0 : pyStrip l = "0"
    · simp [blockNameLoop, h0]
    · cases hp : parseInt? (pyStrip l) with
      | none =>
        have ih := blockNameLoop_length rest
        simp only [blockNameLoop, h0, if_false, hp, List.length_cons]
        omega
      | some code =>
        cases rest with
        | nil => simp [blockNameLoop, h0, hp]
        | cons v rest2 =>
          by_cases hc : code = 2
          · simp only [blockNameLoop, h0, if_false, hp, hc, if_true, List.length_cons]
            omega
          · have ih := blockNameLoop_length rest2
            simp only [blockNameLoop, h0, if_false, hp, hc, List.length_cons]
            omega

theorem pointLoop_length :
    ∀ (ls : List String) (pd : PointData), (pointLoop ls pd).2.2.length ≤ ls.length
  | [], pd => by simp [pointLoop]
  | l :: rest, pd => by
    by_cases h0 : pyStrip l = "0"
    · simp [pointLoop, h0]
    · cases hp : parseInt? (pyStrip l) with
      | none =>
        have ih := pointLoop_length rest pd
        simp only [pointLoop, h0, if_false, hp, List.length_cons]
        omega
      | some code =>
        cases rest with
        | nil => simp [pointLoop, h0, hp]
        | cons v rest2 =>
          have ih := pointLoop_length rest2 (applyPointCode pd code (pyStrip v))
          simp only [pointLoop, h0, if_false, hp, List.length_cons]
          omega

theorem insertLoop_length :
    ∀ (ls : List String) (acc : InsertAcc), (insertLoop ls acc).2.length ≤ ls.length
  | [], acc => by simp [insertLoop]
  | l :: rest, acc => by
    by_cases h0 : pyStrip l = "0"
    · simp [insertLoop, h0]
    · cases hp : parseInt? (pyStrip l) with
      | none =>
        have ih := insertLoop_length rest acc
        simp only [insertLoop, h0, if_false, hp, List.length_cons]
        omega
      | some code =>
        cases rest with
        | nil => simp [insertLoop, h0, hp]
        | cons v rest2 =>
          have ih := insertLoop_length rest2 (applyInsertCode acc code (pyStrip v))
          simp only [insertLoop, h0, if_false, hp, List.length_cons]
          omega

theorem outerStep_length (l : String) (rest : List String) (st : ScanState) :
    (outerStep l rest st).2.length ≤ rest.length := by
  unfold outerStep
  by_cases h1 : pyStrip l = "BLOCK"
  · simpa [h1] using blockNameLoop_length rest
  · by_cases h2 : pyStrip l = "ENDBLK"
    · simp [h1, h2]
    · by_cases h3 : pyStrip l = "POINT"
      · simpa [h1, h2, h3] using pointLoop_length rest ⟨none, none, none⟩
      · by_cases h4 : pyStrip l = "INSERT"
        · simpa [h1, h2, h3, h4] using insertLoop_length rest initInsertAcc
        · simp [h1, h2, h3, h4]

theorem scanLoop_ne_none :
    ∀ (fuel : ℕ) (rem : List String) (st : ScanState),
      rem.length ≤ fuel → scanLoop fuel rem st ≠ none
  | _, [], st, _ => by simp [scanLoop]
  | 0, l :: rest, st, h => by simp at h
  | fuel + 1, l :: rest, st, h => by
    have hlen := outerStep_length l rest st
    have hf : (outerStep l rest st).2.length ≤ fuel := by
      simp only [List.length_cons] at h
      omega
    simpa [scanLoop] using
      scanLoop_ne_none fuel (outerStep l rest st).2 (outerStep l rest st).1 hf

/-- C10: the scanning loop terminates on every finite list of input lines —
despite the cursor rewinds after a "0" terminator inside the BLOCK and
INSERT header loops (modelled by the inner loops returning the terminator
line unconsumed), every outer iteration makes net forward progress, so fuel
equal to the number of remaining lines always suffices and the fuelled loop
never reports exhaustion; in particular running it with fuel lines.length
produces the scan result. -/
theorem scanner_terminates_C10 :
    (∀ (fuel : ℕ) (rem : List String) (st : ScanState),
        rem.length ≤ fuel → scanLoop fuel rem st ≠ none)
    ∧ ∀ lines : List String, scanLoop lines.length lines initState = some (scan lines) := by
  refine ⟨scanLoop_ne_none, fun lines => ?_⟩
  cases h : scanLoop lines.length lines initState with
  | none => exact absurd h (scanLoop_ne_none lines.length lines initState le_rfl)
  | some st => simp [scan, h]

/-- Witness for C10 at a concrete input containing a POINT terminator
rewind. -/
theorem scanner_terminates_C10_witness :
    scanLoop 3 ["0", "POINT", "0"] initState ≠ none :=
  scanner_terminates_C10.1 3 ["0", "POINT", "0"] initState (by decide)

/-- C1 counterexample: on a read failure (input none) the parse returns the
very same point list as on a readable file with no points — the empty list —
so the failure is not surfaced to the caller as a failure value
distinguishable from the successful empty result. -/
theorem read_failure_counterexample_C1 :
    (@parse_dxf_points ℚ _ _ id id id none).1 = (@parse_dxf_points ℚ _ _ id id id (some [])).1
    ∧ (@parse_dxf_points ℚ _ _ id id id none).1 = [] := by
  exact ⟨rfl, rfl⟩

/-- C1 (amended): when the input file cannot be read the code prints an
error message (modelled as the readError diagnostic) and returns the empty
point list — the same return value as for a readable file containing no
points; the two cases differ only in the printed diagnostics, not in the
point list handed to the caller. -/
theorem read_failure_prints_only_C1 {α : Type} [Field α] [DecidableEq α]
    (radiansf cosf sinf : α → α) :
    parse_dxf_points radiansf cosf sinf none = (([] : List (α × α × α)), [Diag.readError])
    ∧ parse_dxf_points radiansf cosf sinf (some []) = (([] : List (α × α × α)), [])
    ∧ (parse_dxf_points radiansf cosf sinf none).1
        = (parse_dxf_points radiansf cosf sinf (some [])).1 :=
  ⟨rfl, rfl, rfl⟩

theorem finishPoint_points_of_block (st : ScanState) (pd : PointData) (b : String)
    (hb : st.currentBlock = some b) : (finishPoint st pd).points = st.points := by
  unfold finishPoint
  cases pd.x <;> cases pd.y <;> simp [hb]

/-- C2 counterexample: a POINT inside a BLOCK...ENDBLK region whose header
has no code-2 name tag is appended directly to the top-level out-of-block
point list (the block name stays unset, so the point takes the
outside-any-block branch). -/
theorem unnamed_block_leak_counterexample_C2 :
    (scan ["0", "BLOCK", "0", "POINT", "10", "1", "20", "2", "0", "ENDBLK"]).points
        = [((1 : ℚ), (2 : ℚ), (0 : ℚ))]
    ∧ (@parse_dxf_points ℚ _ _ id id id
          (some ["0", "BLOCK", "0", "POINT", "10", "1", "20", "2", "0", "ENDBLK"])).1
        = [((1 : ℚ), (2 : ℚ), (0 : ℚ))] := by
  constructor <;> decide

/-- C2 (amended): while a block is active (its header carried a code-2 tag,
so currentBlock is set), no step of the scanner appends to the top-level
point list — in-block points can reach the result only through INSERT
resolution; but for a BLOCK whose header has no code-2 tag currentBlock
stays unset and its points do land in the top-level list (see the
counterexample). -/
theorem active_block_no_top_level_C2 :
    ∀ (l : String) (rest : List String) (st : ScanState),
      st.currentBlock.isSome = true → ((outerStep l rest st).1).points = st.points := by
  intro l rest st h
  obtain ⟨b, hb⟩ : ∃ b, st.currentBlock = some b := Option.isSome_iff_exists.mp h
  unfold outerStep
  dsimp only
  split_ifs
  · rfl
  · rfl
  · unfold emitPoint
    split_ifs <;>
      first
        | exact finishPoint_points_of_block st _ b hb
        | rfl
  · unfold recordInsert
    split_ifs <;> rfl
  · rfl

/-- Witness for C2 (amended): a POINT scanned while block B is active leaves
the top-level point list unchanged. -/
theorem active_block_no_top_level_C2_witness :
    ((outerStep "POINT" ["10", "1", "20", "2", "0"] ⟨[], [], [], some "B", []⟩).1).points
      = (⟨[], [], [], some "B", []⟩ : ScanState).points :=
  active_block_no_top_level_C2 "POINT" ["10", "1", "20", "2", "0"]
    ⟨[], [], [], some "B", []⟩ rfl

/-- The worked block-resolution input: a BLOCK B1 with points (0,0,0) and
(1,1,1), referenced by two INSERTs with origins (10,0,0) and (0,10,0),
scale 1, rotation 0. -/
def blockExample : List String :=
  ["0", "BLOCK", "2", "B1", "0", "POINT", "10", "0", "20", "0", "30", "0",
   "0", "POINT", "10", "1", "20", "1", "30", "1", "0", "ENDBLK",
   "0", "INSERT", "2", "B1", "10", "10", "20", "0", "30", "0",
   "0", "INSERT", "2", "B1", "10", "0", "20", "10", "30", "0", "0", "EOF"]

/-- C3: the result sequence is the out-of-block points in file order,
followed by the per-instance contributions in instance order; each resolved
instance contributes the transformed copies of its block's points in the
block's capture order; and the worked B1 example resolves to exactly
(10,0,0),(11,1,1),(0,10,0),(1,11,1) in that order. -/
theorem result_order_C3 {α : Type} [Field α] [DecidableEq α] (radiansf cosf sinf : α → α) :
    (∀ lines : List String,
        parse_dxf_points radiansf cosf sinf (some lines)
          = ((scan lines).points.map castPt
                ++ (resolveInserts radiansf cosf sinf (scan lines).blocks (scan lines).inserts).1,
              (resolveInserts radiansf cosf sinf (scan lines).blocks (scan lines).inserts).2))
    ∧ (∀ (blocks : List (String × List PtQ)) (ins : List InsertAcc),
        (resolveInserts radiansf cosf sinf blocks ins).1
          = ins.flatMap (fun j => (resolveOne radiansf cosf sinf blocks j).1))
    ∧ (∀ (blocks : List (String × List PtQ)) (j : InsertAcc),
        (resolveOne radiansf cosf sinf blocks j).1
          = ((List.lookup j.name blocks).getD []).map (fun p =>
              transform_point radiansf cosf sinf (p.1 : α) (p.2.1 : α) (p.2.2 : α)
                (j.insertX : α) (j.insertY : α) (j.insertZ : α)
                (j.scaleX : α) (j.scaleY : α) (j.scaleZ : α) (j.rotation : α)))
    ∧ (parse_dxf_points radiansf cosf sinf (some blockExample)).1
        = [((10 : α), 0, 0), (11, 1, 1), (0, 10, 0), (1, 11, 1)] := by
  refine ⟨fun lines => rfl, fun blocks ins => ?_, fun blocks j => ?_, ?_⟩
  · induction ins with
    | nil => simp [resolveInserts]
    | cons a rest ih => simp [resolveInserts, ih]
  · cases h : List.lookup j.name blocks <;> simp [resolveOne, h]
  · have hscan : scan blockExample
        = ⟨[], [("B1", [(0, 0, 0), (1, 1, 1)])],
            [⟨"B1", 10, 0, 0, 1, 1, 1, 0⟩, ⟨"B1", 0, 10, 0, 1, 1, 1, 0⟩], none, []⟩ := by
      decide
    simp only [parse_dxf_points, hscan]
    simp [resolveInserts, resolveOne, List.lookup, castPt, transform_point]
    norm_num

/-- C4: an INSERT whose block name is not in the registry contributes no
points and exactly one unresolved-block diagnostic, and leaves the
contribution of every other instance (before and after it) unchanged. -/
theorem unresolved_insert_C4 {α : Type} [Field α] [DecidableEq α]
    (radiansf cosf sinf : α → α) (blocks : List (String × List PtQ))
    (pre post : List InsertAcc) (g : InsertAcc)
    (hg : List.lookup g.name blocks = none) :
    resolveOne radiansf cosf sinf blocks g = ([], [Diag.unresolvedBlock g.name])
    ∧ resolveInserts radiansf cosf sinf blocks (pre ++ g :: post)
        = ((resolveInserts radiansf cosf sinf blocks pre).1
              ++ (resolveInserts radiansf cosf sinf blocks post).1,
            (resolveInserts radiansf cosf sinf blocks pre).2
              ++ Diag.unresolvedBlock g.name
                :: (resolveInserts radiansf cosf sinf blocks post).2) := by
  constructor
  · simp [resolveOne, hg]
  · induction pre with
    | nil => simp [resolveInserts, resolveOne, hg]
    | cons a rest ih => simp [resolveInserts, ih, List.append_assoc]

/-- Witness for C4: a Ghost INSERT among resolvable ones contributes zero
points and one diagnostic. -/
theorem unresolved_insert_C4_witness :
    @resolveOne ℚ _ _ id id id [("B1", [((1 : ℚ), 2, 3)])] ⟨"Ghost", 0, 0, 0, 1, 1, 1, 0⟩
        = ([], [Diag.unresolvedBlock "Ghost"])
    ∧ @resolveInserts ℚ _ _ id id id [("B1", [((1 : ℚ), 2, 3)])]
        ([] ++ ⟨"Ghost", 0, 0, 0, 1, 1, 1, 0⟩ :: [⟨"B1", 0, 0, 0, 1, 1, 1, 0⟩])
        = ((@resolveInserts ℚ _ _ id id id [("B1", [((1 : ℚ), 2, 3)])] []).1
              ++ (@resolveInserts ℚ _ _ id id id [("B1", [((1 : ℚ), 2, 3)])]
                    [⟨"B1", 0, 0, 0, 1, 1, 1, 0⟩]).1,
            (@resolveInserts ℚ _ _ id id id [("B1", [((1 : ℚ), 2, 3)])] []).2
              ++ Diag.unresolvedBlock "Ghost"
                :: (@resolveInserts ℚ _ _ id id id [("B1", [((1 : ℚ), 2, 3)])]
                      [⟨"B1", 0, 0, 0, 1, 1, 1, 0⟩]).2) :=
  @unresolved_insert_C4 ℚ _ _ id id id [("B1", [((1 : ℚ), 2, 3)])] []
    [⟨"B1", 0, 0, 0, 1, 1, 1, 0⟩] ⟨"Ghost", 0, 0, 0, 1, 1, 1, 0⟩ (by decide)

/-- Registry entries are always nonempty point lists. -/
def blocksOK (bs : List (String × List PtQ)) : Prop := ∀ e ∈ bs, e.2 ≠ []

theorem registerCurrent_ok (st : ScanState) (h : blocksOK st.blocks) :
    blocksOK (registerCurrent st) := by
  unfold registerCurrent
  cases hc : st.currentBlock with
  | none => exact h
  | some nm =>
    dsimp only
    split_ifs with hcond
    · intro e he
      rcases List.mem_cons.mp he with rfl | he2
      · exact hcond.2
      · exact h e he2
    · exact h

theorem finishPoint_blocks (st : ScanState) (pd : PointData) :
    (finishPoint st pd).blocks = st.blocks := by
  unfold finishPoint
  cases pd.x <;> cases pd.y <;> cases hc : st.currentBlock <;> simp [hc]

theorem emitPoint_blocks (st : ScanState) (pd : PointData) (c : Bool) :
    (emitPoint st pd c).blocks = st.blocks := by
  unfold emitPoint
  split_ifs <;> simp [finishPoint_blocks]

theorem outerStep_blocksOK (l : String) (rest : List String) (st : ScanState)
    (h : blocksOK st.blocks) : blocksOK ((outerStep l rest st).1).blocks := by
  unfold outerStep
  dsimp only
  split_ifs
  · exact h
  · exact registerCurrent_ok st h
  · rw [emitPoint_blocks]
    exact h
  · unfold recordInsert
    split_ifs <;> exact h
  · exact h

theorem scanLoop_blocksOK :
    ∀ (fuel : ℕ) (rem : List String) (st st' : ScanState),
      blocksOK st.blocks → scanLoop fuel rem st = some st' → blocksOK st'.blocks
  | fuel, [], st, st', h, he => by
    simp only [scanLoop, Option.some.injEq] at he
    subst he
    exact registerCurrent_ok st h
  | 0, l :: rest, _, _, _, he => by simp [scanLoop] at he
  | fuel + 1, l :: rest, st, st', h, he => by
    simp only [scanLoop] at he
    exact scanLoop_blocksOK fuel (outerStep l rest st).2 (outerStep l rest st).1 st'
      (outerStep_blocksOK l rest st h) he

theorem scan_blocksOK (lines : List String) : blocksOK (scan lines).blocks := by
  unfold scan
  cases he : scanLoop lines.length lines initState with
  | none =>
    intro e he2
    simp [initState] at he2
  | some st =>
    exact scanLoop_blocksOK lines.length lines initState st
      (by intro e he2; simp [initState] at he2) he

theorem lookup_mem :
    ∀ (bs : List (String × List PtQ)) (nm : String) (pts : List PtQ),
      List.lookup nm bs = some pts → (nm, pts) ∈ bs := by
  intro bs
  induction bs with
  | nil => intro nm pts h; simp [List.lookup] at h
  | cons e rest ih =>
    intro nm pts h
    obtain ⟨k, v⟩ := e
    simp only [List.lookup] at h
    cases hk : (nm == k) with
    | true =>
      rw [hk] at h
      obtain rfl : v = pts := by simpa using h
      obtain rfl : nm = k := eq_of_beq hk
      exact List.mem_cons_self _ _
    | false =>
      rw [hk] at h
      exact List.mem_cons_of_mem _ (ih nm pts h)

/-- C9: a named block that closes having captured zero points is never
entered into the registry (every registry lookup yields a nonempty point
list, and the concrete empty block E is not registered), so an INSERT
referencing it is treated exactly like any unresolved block reference:
zero points and one diagnostic. -/
theorem empty_block_never_registered_C9 {α : Type} [Field α] [DecidableEq α]
    (radiansf cosf sinf : α → α) :
    (∀ (lines : List String) (nm : String) (pts : List PtQ),
        List.lookup nm (scan lines).blocks = some pts → pts ≠ [])
    ∧ (scan ["0", "BLOCK", "2", "E", "0", "ENDBLK"]).blocks = []
    ∧ (∀ (blocks : List (String × List PtQ)) (ins : InsertAcc),
        List.lookup ins.name blocks = none →
        resolveOne radiansf cosf sinf blocks ins = ([], [Diag.unresolvedBlock ins.name])) := by
  refine ⟨?_, by decide, ?_⟩
  · intro lines nm pts h
    exact scan_blocksOK lines (nm, pts) (lookup_mem _ nm pts h)
  · intro blocks ins h
    simp [resolveOne, h]

/-- Witness for C9: a registered one-point block is nonempty, and an INSERT
naming a block absent from an empty registry resolves to no points and one
diagnostic. -/
theorem empty_block_never_registered_C9_witness :
    ([((1 : ℚ), 2, 0)] : List PtQ) ≠ []
    ∧ @resolveOne ℚ _ _ id id id [] ⟨"E", 0, 0, 0, 1, 1, 1, 0⟩
        = ([], [Diag.unresolvedBlock "E"]) :=
  ⟨(@empty_block_never_registered_C9 ℚ _ _ id id id).1
      ["0", "BLOCK", "2", "B", "0", "POINT", "10", "1", "20", "2", "0", "ENDBLK"]
      "B" [((1 : ℚ), 2, 0)] (by decide),
   (@empty_block_never_registered_C9 ℚ _ _ id id id).2.2 [] ⟨"E", 0, 0, 0, 1, 1, 1, 0⟩
      (by decide)⟩

/-- C5: the transform applies exactly, in order, componentwise scale, then
counter-clockwise rotation of the scaled x/y pair about Z by the angle in
degrees (converted to radians), then translation by the insertion origin,
with z never rotated; in particular (1,0,0) with scale (2,1,1), rotation
90 degrees and origin (5,5,0) yields exactly (5,7,0) (hence within any
positive tolerance such as 1e-9). -/
theorem transform_order_C5 :
    (∀ x y z ox oy oz sx sy sz rot : ℝ,
        transform_point (fun d => d * Real.pi / 180) Real.cos Real.sin
            x y z ox oy oz sx sy sz rot
          = translateStep ox oy oz
              (rotateStep Real.cos Real.sin (rot * Real.pi / 180)
                (scaleStep sx sy sz (x, y, z))))
    ∧ transform_point (fun d => d * Real.pi / 180) Real.cos Real.sin
          1 0 0 5 5 0 2 1 1 90 = ((5 : ℝ), 7, 0) := by
  constructor
  · intro x y z ox oy oz sx sy sz rot
    by_cases h : rot = 0
    · subst h
      simp [transform_point, scaleStep, rotateStep, translateStep]
    · simp [transform_point, scaleStep, rotateStep, translateStep, h]
  · have h90 : (90 : ℝ) * Real.pi / 180 = Real.pi / 2 := by ring
    norm_num [transform_point, h90, Real.cos_pi_div_two, Real.sin_pi_div_two]

/-- C6: with origin (0,0,0), scale (1,1,1) and rotation 0 the transform is
the exact identity for every point and any trigonometric backend — the
rotation-zero path performs no trigonometry. -/
theorem rotation_zero_identity_C6 (radiansf cosf sinf : ℝ → ℝ) (x y z : ℝ) :
    transform_point radiansf cosf sinf x y z 0 0 0 1 1 1 0 = (x, y, z) := by
  simp [transform_point]

theorem dedupUniqueAux_eq {α : Type} [DecidableEq α] (l : List α) :
    ∀ seen : List α,
      dedupUniqueAux seen l = firstOccurs (l.filter (fun a => decide (a ∉ seen))) := by
  induction l with
  | nil => intro seen; simp [dedupUniqueAux, firstOccurs]
  | cons p rest ih =>
    intro seen
    by_cases hp : p ∈ seen
    · simp [dedupUniqueAux, hp, ih seen]
    · simp only [dedupUniqueAux, if_neg hp]
      rw [ih (p :: seen)]
      have hfc : List.filter (fun a => decide (a ∉ seen)) (p :: rest)
          = p :: List.filter (fun a => decide (a ∉ seen)) rest := by
        simp [hp]
      rw [hfc, firstOccurs]
      congr 1
      rw [List.filter_filter]
      congr 1
      apply List.filter_congr
      intro a _
      simp [List.mem_cons, not_or, Decidable.not_not, and_comm]

/-- C7: unique-ordered mode retains exactly the first occurrence of each
exactly-equal element in first-seen order (it agrees with the
first-occurrence recursion), keep-all mode is the identity, and the worked
example [(1,2,3),(1,2,3),(4,5,6)] deduplicates to [(1,2,3),(4,5,6)]. -/
theorem dedup_modes_C7 {α : Type} [DecidableEq α] :
    (∀ l : List α, dedupUnique l = firstOccurs l ∧ keepAll l = l)
    ∧ dedupUnique [((1 : ℚ), (2 : ℚ), (3 : ℚ)), (1, 2, 3), (4, 5, 6)]
        = [((1 : ℚ), (2 : ℚ), (3 : ℚ)), (4, 5, 6)]
    ∧ keepAll [((1 : ℚ), (2 : ℚ), (3 : ℚ)), (1, 2, 3), (4, 5, 6)]
        = [((1 : ℚ), (2 : ℚ), (3 : ℚ)), (1, 2, 3), (4, 5, 6)] := by
  refine ⟨fun l => ⟨?_, rfl⟩, by decide, rfl⟩
  rw [dedupUnique, dedupUniqueAux_eq l []]
  congr 1
  simp

/-- C8: a malformed numeric value line never changes the accumulator state —
each coordinate or INSERT parameter keeps its previous (default) value for
every numeric group code — and a POINT record missing x or y is never
completed: finalisation leaves the scan state unchanged, contributing no
point at all.  (The embedding is total, so no error can be raised.) -/
theorem malformed_value_safe_C8 :
    (∀ v : String, parseFloat? v = none →
        (∀ pd : PointData,
            applyPointCode pd 10 v = pd ∧ applyPointCode pd 20 v = pd
              ∧ applyPointCode pd 30 v = pd)
        ∧ ∀ acc : InsertAcc,
            applyInsertCode acc 10 v = acc ∧ applyInsertCode acc 20 v = acc
              ∧ applyInsertCode acc 30 v = acc ∧ applyInsertCode acc 41 v = acc
              ∧ applyInsertCode acc 42 v = acc ∧ applyInsertCode acc 43 v = acc
              ∧ applyInsertCode acc 50 v = acc)
    ∧ ∀ (st : ScanState) (pd : PointData) (c : Bool),
        pd.x = none ∨ pd.y = none → emitPoint st pd c = st := by
  constructor
  · intro v hv
    constructor
    · intro pd
      refine ⟨?_, ?_, ?_⟩ <;> simp [applyPointCode, hv]
    · intro acc
      refine ⟨?_, ?_, ?_, ?_, ?_, ?_, ?_⟩ <;> simp [applyInsertCode, setIfParses, hv]
  · intro st pd c h
    obtain ⟨px, py, pz⟩ := pd
    have hfp : finishPoint st ⟨px, py, pz⟩ = st := by
      rcases h with h | h <;> simp only at h <;> subst h
      · cases py <;> rfl
      · cases px <;> rfl
    unfold emitPoint
    split_ifs <;> simp [hfp]

/-- Witness for C8: the unparsable value "abc" leaves a POINT accumulator
and the INSERT defaults unchanged, and a POINT with no x coordinate emits
nothing. -/
theorem malformed_value_safe_C8_witness :
    applyPointCode ⟨none, none, none⟩ 10 "abc" = ⟨none, none, none⟩
    ∧ applyInsertCode initInsertAcc 50 "abc" = initInsertAcc
    ∧ emitPoint initState ⟨none, some 1, some 2⟩ false = initState :=
  ⟨((malformed_value_safe_C8.1 "abc" (by decide)).1 ⟨none, none, none⟩).1,
   ((malformed_value_safe_C8.1 "abc" (by decide)).2 initInsertAcc).2.2.2.2.2.2,
   malformed_value_safe_C8.2 initState ⟨none, some 1, some 2⟩ false (Or.inl rfl)⟩

end DxfToCsv
